import Mathlib

set_option autoImplicit false

/-!
Shallow embedding of the core of `sensat/forge-server-utils`
(`src/design-automation.js`, class `DesignAutomationClient`):

* cursor-based pagination (`_pager`, `_collect`), modelled as functions from
  the sequence of decoded remote responses to the trace of collaborator calls
  (authenticate / HTTP GET) and the produced pages or concatenated items;
* the four per-engine activity-descriptor builders
  (`_autocadActivityConfig`, `_revitActivityConfig`, `_inventorActivityConfig`,
  `_3dsmaxActivityConfig`) and the `createActivity` / `updateActivity`
  entry points that dispatch on the engine identifier's name segment.
-/

namespace ForgeServerUtils

/-- Constant `RootPath` of `src/design-automation.js`. -/
def RootPath : String := "/da/us-east/v3"

/-- Constant `ReadScopes` of `src/design-automation.js`. -/
def ReadScopes : List String := ["code:all"]

/-- Decoded body of one paginated listing response: a `data` array and an
optional `paginationToken`, as consumed by `_pager` and `_collect`. -/
structure PageResponse (α : Type) where
  data : List α
  paginationToken : Option String := none
deriving Repr, DecidableEq

/-- Observable calls the pagination code makes to its collaborators:
`auth.authenticate(scopes)` and an HTTP GET of a URL. -/
inductive PageEvent where
  | authenticate (scopes : List String)
  | getPage (url : String)
deriving Repr, DecidableEq

/-- URL of a page request: `_pager`/`_collect` request
`host + RootPath + endpoint` for the first page and
`host + RootPath + endpoint + "?page=" + token` while a `paginationToken`
is present. -/
def pageUrl (host endpoint : String) : Option String → String
  | none => host ++ RootPath ++ endpoint
  | some t => host ++ RootPath ++ endpoint ++ "?page=" ++ t

/-- Embedding of the loop of `_collect(endpoint, scopes)`: the remote is
modelled by the list of responses it returns to the successive GET requests;
`tok` is the pagination token carried into the next request (`none` for the
first request).  Returns the trace of collaborator calls and the accumulated
`results` array.  Each iteration re-authenticates, GETs the page URL, appends
`response.data`, and continues iff `response.paginationToken` is present. -/
def collectRun {α : Type} (host endpoint : String) (scopes : List String) :
    List (PageResponse α) → Option String → List PageEvent × List α
  | [], _ => ([], [])
  | r :: rest, tok =>
    match r.paginationToken with
    | none =>
      ([PageEvent.authenticate scopes, PageEvent.getPage (pageUrl host endpoint tok)], r.data)
    | some t =>
      (PageEvent.authenticate scopes :: PageEvent.getPage (pageUrl host endpoint tok) ::
          (collectRun host endpoint scopes rest (some t)).1,
        r.data ++ (collectRun host endpoint scopes rest (some t)).2)

/-- `_collect(endpoint, scopes)`: the first request carries no page token. -/
def collect {α : Type} (host endpoint : String) (scopes : List String)
    (responses : List (PageResponse α)) : List PageEvent × List α :=
  collectRun host endpoint scopes responses none

/-- Embedding of the loop of the async generator `_pager(endpoint, scopes)`,
in the same style as `collectRun` but yielding the list of pages (each page
being one `response.data`) instead of concatenating them. -/
def pagerRun {α : Type} (host endpoint : String) (scopes : List String) :
    List (PageResponse α) → Option String → List PageEvent × List (List α)
  | [], _ => ([], [])
  | r :: rest, tok =>
    match r.paginationToken with
    | none =>
      ([PageEvent.authenticate scopes, PageEvent.getPage (pageUrl host endpoint tok)], [r.data])
    | some t =>
      (PageEvent.authenticate scopes :: PageEvent.getPage (pageUrl host endpoint tok) ::
          (pagerRun host endpoint scopes rest (some t)).1,
        r.data :: (pagerRun host endpoint scopes rest (some t)).2)

/-- `_pager(endpoint, scopes)` driven to completion: first request carries no
page token. -/
def pager {α : Type} (host endpoint : String) (scopes : List String)
    (responses : List (PageResponse α)) : List PageEvent × List (List α) :=
  pagerRun host endpoint scopes responses none

/-- Number of `authenticate` events in a trace. -/
def countAuth : List PageEvent → Nat
  | [] => 0
  | PageEvent.authenticate _ :: es => countAuth es + 1
  | PageEvent.getPage _ :: es => countAuth es

/-- Number of page-fetch (`getPage`) events in a trace. -/
def countGet : List PageEvent → Nat
  | [] => 0
  | PageEvent.authenticate _ :: es => countGet es
  | PageEvent.getPage _ :: es => countGet es + 1

/-- A trace consists of blocks `authenticate scopes` immediately followed by a
page fetch: a fresh token is acquired with the given scopes before each fetch. -/
def isAuthGetBlocks (scopes : List String) : List PageEvent → Bool
  | [] => true
  | PageEvent.authenticate s :: PageEvent.getPage _ :: es =>
    decide (s = scopes) && isAuthGetBlocks scopes es
  | _ => false

/-- A response sequence forming a complete pagination run: every response but
the last carries a continuation token, and the last carries none. -/
def isTokenChain {α : Type} : List (PageResponse α) → Bool
  | [] => false
  | [r] => r.paginationToken.isNone
  | r :: rest => r.paginationToken.isSome && isTokenChain rest

/-- JS truthiness of an optional string value (`undefined`/`null` and the
empty string are falsy), as used by the builders' `if (...)` guards. -/
def truthy : Option String → Bool
  | none => false
  | some s => !(s == "")

/-- Input descriptor accepted by `createActivity`/`updateActivity`:
properties `name` and (optional) `description`. -/
structure InputDescriptor where
  name : String
  description : Option String := none
deriving Repr, DecidableEq

/-- Output descriptor accepted by `createActivity`/`updateActivity`:
properties `name`, optional `description` and optional `localName`. -/
structure OutputDescriptor where
  name : String
  description : Option String := none
  localName : Option String := none
deriving Repr, DecidableEq

/-- One entry of the `parameters` mapping of an activity config:
`verb` (`"get"` or `"put"`), optional `description`, optional `localName`. -/
structure ParameterDescriptor where
  verb : String
  description : Option String := none
  localName : Option String := none
deriving Repr, DecidableEq

/-- The `parameters` object of an activity config, modelled as an
insertion-ordered association list (JS object property order). -/
abbrev Parameters := List (String × ParameterDescriptor)

/-- JS object property write `obj[k] = v`: replace the value in place when
the key exists (keeping its position), otherwise append the new entry. -/
def objInsert (k : String) (v : ParameterDescriptor) : Parameters → Parameters
  | [] => [(k, v)]
  | (k₂, v₂) :: rest => if k₂ = k then (k, v) :: rest else (k₂, v₂) :: objInsert k v rest

/-- JS object property read `obj[n]`. -/
def lookupParam (n : String) : Parameters → Option ParameterDescriptor
  | [] => none
  | (k, v) :: rest => if k = n then some v else lookupParam n rest

/-- The `get` entry registered for one input:
`parameters[input.name] = { verb: 'get' }`, then `description` added when
truthy. -/
def getDescriptor (i : InputDescriptor) : ParameterDescriptor :=
  { verb := "get", description := if truthy i.description then i.description else none }

/-- The `put` entry registered for one output:
`parameters[output.name] = { verb: 'put' }`, then `description` and
`localName` added when truthy. -/
def putDescriptor (o : OutputDescriptor) : ParameterDescriptor :=
  { verb := "put",
    description := if truthy o.description then o.description else none,
    localName := if truthy o.localName then o.localName else none }

/-- The `for (const input of inputs)` registration loop of the builders. -/
def registerInputs : List InputDescriptor → Parameters → Parameters
  | [], ps => ps
  | i :: rest, ps => registerInputs rest (objInsert i.name (getDescriptor i) ps)

/-- The `for (const output of outputs)` registration loop of the builders. -/
def registerOutputs : List OutputDescriptor → Parameters → Parameters
  | [], ps => ps
  | o :: rest, ps => registerOutputs rest (objInsert o.name (putDescriptor o) ps)

/-- Command-line fragment appended per input: `' $(args[<name>].path)'`. -/
def inputPlaceholder (n : String) : String := " $(args[" ++ n ++ "].path)"

/-- The per-input append loop over the command-line string. -/
def appendInputPlaceholders : List InputDescriptor → String → String
  | [], s => s
  | i :: rest, s => appendInputPlaceholders rest (s ++ inputPlaceholder i.name)

/-- The `if (inputs.length > 0)` block of the AutoCAD/Revit/Inventor
builders: append `' /i'` and then one placeholder per input, in list order. -/
def inputsCommandSuffix (inputs : List InputDescriptor) : String :=
  if inputs.length > 0 then appendInputPlaceholders inputs " /i" else ""

/-- The `id` field of a produced config, distinguishing an absent JSON field
from a field holding `null` and from a field holding a string. -/
inductive IdField where
  | absent
  | null
  | val (s : String)
deriving Repr, DecidableEq

/-- `id: activityId` written unconditionally (Revit, AutoCAD, 3dsMax
builders): the field is present, holding `null` when no id was supplied. -/
def idAlways : Option String → IdField
  | none => IdField.null
  | some s => IdField.val s

/-- `if (activityId) config.id = activityId` (Inventor builder): the field is
present only when the supplied id is truthy. -/
def idIfTruthy : Option String → IdField
  | none => IdField.absent
  | some s => if s == "" then IdField.absent else IdField.val s

/-- The `commandLine` field: an array of strings for the AutoCAD, Revit and
Inventor builders, a single string for the 3dsMax builder. -/
inductive CommandLine where
  | arr (tokens : List String)
  | str (s : String)
deriving Repr, DecidableEq

/-- The activity config object produced by the four builders and posted by
`createActivity`/`updateActivity`. -/
structure ActivityConfig where
  id : IdField
  commandLine : CommandLine
  parameters : Parameters
  description : String
  engine : String
  appbundles : List String
  settings : Option String := none
deriving Repr, DecidableEq

/-- App-bundle reference string `<ownerId>.<bundleName>+<bundleAlias>`. -/
def appBundleRef (ownerId bundleName bundleAlias : String) : String :=
  ownerId ++ "." ++ bundleName ++ "+" ++ bundleAlias

/-- Base command of the Inventor builder. -/
def inventorBaseCommand (bundleName : String) : String :=
  "$(engine.path)\\InventorCoreConsole.exe /al $(appbundles[" ++ bundleName ++ "].path)"

/-- Base command of the Revit builder. -/
def revitBaseCommand (bundleName : String) : String :=
  "$(engine.path)\\revitcoreconsole.exe /al $(appbundles[" ++ bundleName ++ "].path)"

/-- Base command of the AutoCAD builder. -/
def autocadBaseCommand (bundleName : String) : String :=
  "$(engine.path)\\accoreconsole.exe /al $(appbundles[" ++ bundleName ++ "].path)"

/-- `_inventorActivityConfig` of `src/design-automation.js`. -/
def inventorActivityConfig (activityId : Option String)
    (description ownerId bundleName bundleAlias engine : String)
    (inputs : List InputDescriptor) (outputs : List OutputDescriptor) : ActivityConfig :=
  { id := idIfTruthy activityId,
    commandLine := CommandLine.arr [inventorBaseCommand bundleName ++ inputsCommandSuffix inputs],
    parameters := registerOutputs outputs (registerInputs inputs []),
    description := description,
    engine := engine,
    appbundles := [appBundleRef ownerId bundleName bundleAlias] }

/-- `_revitActivityConfig` of `src/design-automation.js`. -/
def revitActivityConfig (activityId : Option String)
    (description ownerId bundleName bundleAlias engine : String)
    (inputs : List InputDescriptor) (outputs : List OutputDescriptor) : ActivityConfig :=
  { id := idAlways activityId,
    commandLine := CommandLine.arr [revitBaseCommand bundleName ++ inputsCommandSuffix inputs],
    parameters := registerOutputs outputs (registerInputs inputs []),
    description := description,
    engine := engine,
    appbundles := [appBundleRef ownerId bundleName bundleAlias] }

/-- Command-line fragment appended by the AutoCAD builder when `script` is
truthy. -/
def autocadScriptSuffix : String := " /s $(settings[script].path)"

/-- `_autocadActivityConfig` of `src/design-automation.js`. -/
def autocadActivityConfig (activityId : Option String)
    (description ownerId bundleName bundleAlias engine : String)
    (inputs : List InputDescriptor) (outputs : List OutputDescriptor)
    (script : Option String) : ActivityConfig :=
  { id := idAlways activityId,
    commandLine := CommandLine.arr
      [autocadBaseCommand bundleName ++ inputsCommandSuffix inputs ++
        (if truthy script then autocadScriptSuffix else "")],
    parameters := registerOutputs outputs (registerInputs inputs []),
    description := description,
    engine := engine,
    appbundles := [appBundleRef ownerId bundleName bundleAlias],
    settings := if truthy script then script else none }

/-- Error message thrown by `_3dsmaxActivityConfig` on more than one input. -/
def threeDSMaxInputError : String := "3dsMax engine only supports single input file."

/-- `_3dsmaxActivityConfig` of `src/design-automation.js`: throws when more
than one input is supplied; otherwise builds a single-string command line
registering only the first input (when present). -/
def threeDSMaxActivityConfig (activityId : Option String)
    (description ownerId bundleName bundleAlias engine : String)
    (inputs : List InputDescriptor) (outputs : List OutputDescriptor)
    (script : Option String) : Except String ActivityConfig :=
  if inputs.length > 1 then
    Except.error threeDSMaxInputError
  else
    Except.ok
      { id := idAlways activityId,
        commandLine := CommandLine.str
          ("$(engine.path)\\3dsmaxbatch.exe" ++
            (match inputs with
             | [] => ""
             | i :: _ => " -sceneFile \"$(args[" ++ i.name ++ "].path)\"") ++
            (if truthy script then " \"$(settings[script].path)\"" else "")),
        parameters := registerOutputs outputs
          (match inputs with
           | [] => []
           | i :: _ => [(i.name, getDescriptor i)]),
        description := description,
        engine := engine,
        appbundles := [appBundleRef ownerId bundleName bundleAlias],
        settings := if truthy script then script else none }

/-- Modelled from the spec: `DesignAutomationURI` lives in `src/common.js`,
which is not among the sources.  Helper: the characters of the identifier
before the first `+` (the version/alias suffix is not part of the name). -/
def takeBeforePlus : List Char → List Char
  | [] => []
  | c :: cs => if c = '+' then [] else c :: takeBeforePlus cs

/-- Modelled from the spec: `DesignAutomationURI` lives in `src/common.js`,
which is not among the sources.  Helper: the segment after the last `.`
(`acc` accumulates the segment read so far, reset at each dot). -/
def lastDotSegment : List Char → List Char → List Char
  | acc, [] => acc
  | acc, c :: cs => if c = '.' then lastDotSegment [] cs else lastDotSegment (acc ++ [c]) cs

/-- Modelled from the spec: `DesignAutomationURI` lives in `src/common.js`,
which is not among the sources; per the spec the engine identifier encodes a
namespace-qualified name such as `"vendor.Engine+version"`, and only the name
segment (after the last `.` of the part before the optional `+`) selects the
variant. -/
def engineUriName (engine : String) : String :=
  String.mk (lastDotSegment [] (takeBeforePlus engine.data))

/-- Observable calls `createActivity`/`updateActivity` make to their
collaborators: `auth.authenticate(scopes)` and an HTTP POST of a config body
(`none` when the JS `config` variable was left `undefined`). -/
inductive DAEvent where
  | authenticate (scopes : List String)
  | postReq (url : String) (body : Option ActivityConfig)
deriving Repr, DecidableEq

/-- `createActivity` of `src/design-automation.js`: authenticate, dispatch on
the engine identifier's name segment (no `default` case: an unrecognized name
leaves `config` undefined), then POST to `/activities`.  The result pairs the
trace of collaborator calls with the outcome: the posted config (or `none`
when no case matched), or the error thrown by the 3dsMax builder. -/
def createActivity (host clientId : String) (id : String)
    (description bundleName bundleAlias engine : String)
    (inputs : List InputDescriptor) (outputs : List OutputDescriptor)
    (script : Option String) : List DAEvent × Except String (Option ActivityConfig) :=
  let name := engineUriName engine
  let built : Except String (Option ActivityConfig) :=
    if name = "AutoCAD" then
      Except.ok (some (autocadActivityConfig (some id) description clientId bundleName
        bundleAlias engine inputs outputs script))
    else if name = "3dsMax" then
      (threeDSMaxActivityConfig (some id) description clientId bundleName
        bundleAlias engine inputs outputs script).map some
    else if name = "Revit" then
      Except.ok (some (revitActivityConfig (some id) description clientId bundleName
        bundleAlias engine inputs outputs))
    else if name = "Inventor" then
      Except.ok (some (inventorActivityConfig (some id) description clientId bundleName
        bundleAlias engine inputs outputs))
    else Except.ok none
  match built with
  | Except.error e => ([DAEvent.authenticate ReadScopes], Except.error e)
  | Except.ok cfg =>
    ([DAEvent.authenticate ReadScopes,
      DAEvent.postReq (host ++ RootPath ++ "/activities") cfg], Except.ok cfg)

/-- `updateActivity` of `src/design-automation.js`: same dispatch as
`createActivity` but passing `null` as the activity id to every builder and
posting to `/activities/<id>/versions`. -/
def updateActivity (host clientId : String) (id : String)
    (description bundleName bundleAlias engine : String)
    (inputs : List InputDescriptor) (outputs : List OutputDescriptor)
    (script : Option String) : List DAEvent × Except String (Option ActivityConfig) :=
  let name := engineUriName engine
  let built : Except String (Option ActivityConfig) :=
    if name = "AutoCAD" then
      Except.ok (some (autocadActivityConfig none description clientId bundleName
        bundleAlias engine inputs outputs script))
    else if name = "3dsMax" then
      (threeDSMaxActivityConfig none description clientId bundleName
        bundleAlias engine inputs outputs script).map some
    else if name = "Revit" then
      Except.ok (some (revitActivityConfig none description clientId bundleName
        bundleAlias engine inputs outputs))
    else if name = "Inventor" then
      Except.ok (some (inventorActivityConfig none description clientId bundleName
        bundleAlias engine inputs outputs))
    else Except.ok none
  match built with
  | Except.error e => ([DAEvent.authenticate ReadScopes], Except.error e)
  | Except.ok cfg =>
    ([DAEvent.authenticate ReadScopes,
      DAEvent.postReq (host ++ RootPath ++ "/activities/" ++ id ++ "/versions") cfg],
      Except.ok cfg)

theorem collectRun_items_eq_join_pagerRun {α : Type} (host endpoint : String)
    (scopes : List String) :
    ∀ (responses : List (PageResponse α)) (tok : Option String),
      (collectRun host endpoint scopes responses tok).2 =
        (pagerRun host endpoint scopes responses tok).2.flatten := by
  intro responses
  induction responses with
  | nil => intro tok; simp [collectRun, pagerRun]
  | cons r rest ih =>
    intro tok
    cases h : r.paginationToken with
    | none => simp [collectRun, pagerRun, h]
    | some t => simp [collectRun, pagerRun, h, ih]

/-- Claim C1: for every endpoint, scope set, and sequence of remote page
responses, `_collect` returns exactly the concatenation, in order, of the
`data` arrays of the pages `_pager` yields on the same endpoint, scopes and
responses. -/
theorem collect_eq_pager_join {α : Type} (host endpoint : String)
    (scopes : List String) (responses : List (PageResponse α)) :
    (collect host endpoint scopes responses).2 =
      (pager host endpoint scopes responses).2.flatten :=
  collectRun_items_eq_join_pagerRun host endpoint scopes responses none

/-- Claim C4: a pagination iteration stops iff the response carries no
`paginationToken` (the remaining responses are never requested), and when a
token `t` is present the next request targets the same endpoint with
`?page=t` appended. -/
theorem pagination_step_token (host endpoint : String) (scopes : List String)
    {α : Type} (r : PageResponse α) (rest : List (PageResponse α))
    (tok : Option String) :
    (collectRun host endpoint scopes (r :: rest) tok =
      match r.paginationToken with
      | none => collectRun host endpoint scopes [r] tok
      | some t =>
        (PageEvent.authenticate scopes :: PageEvent.getPage (pageUrl host endpoint tok) ::
            (collectRun host endpoint scopes rest (some t)).1,
          r.data ++ (collectRun host endpoint scopes rest (some t)).2)) ∧
    (pagerRun host endpoint scopes (r :: rest) tok =
      match r.paginationToken with
      | none => pagerRun host endpoint scopes [r] tok
      | some t =>
        (PageEvent.authenticate scopes :: PageEvent.getPage (pageUrl host endpoint tok) ::
            (pagerRun host endpoint scopes rest (some t)).1,
          r.data :: (pagerRun host endpoint scopes rest (some t)).2)) ∧
    (∀ t : String,
      pageUrl host endpoint (some t) = host ++ RootPath ++ endpoint ++ "?page=" ++ t) := by
  refine ⟨?_, ?_, fun t => rfl⟩ <;>
    cases h : r.paginationToken <;> simp [collectRun, pagerRun, h]

/-- Claim C6 (counterexample): running `collect` over the literal responses
`[⟨[1,2], none⟩, ⟨[3], some "X"⟩, ⟨[4,5], none⟩]` does not yield
`[1,2,3,4,5]` — the first response carries no `paginationToken`, so iteration
stops after the first page. -/
theorem collect_literal_ne_flat :
    (collect "" "" []
      ([{ data := [1, 2] }, { data := [3], paginationToken := some "X" },
        { data := [4, 5] }] : List (PageResponse Nat))).2 ≠ [1, 2, 3, 4, 5] := by
  decide

/-- Claim C6 (as amended): over the literal responses
`[⟨[1,2], none⟩, ⟨[3], some "X"⟩, ⟨[4,5], none⟩]`, `collect` yields `[1,2]`
(the first response carries no token, so iteration stops); when the first two
responses carry tokens (`"X"`, then `"Y"`) and the last carries none,
`collect` yields `[1,2,3,4,5]`. -/
theorem collect_literal_eval :
    (collect "" "" []
        ([{ data := [1, 2] }, { data := [3], paginationToken := some "X" },
          { data := [4, 5] }] : List (PageResponse Nat))).2 = [1, 2] ∧
    (collect "" "" []
        ([{ data := [1, 2], paginationToken := some "X" },
          { data := [3], paginationToken := some "Y" },
          { data := [4, 5] }] : List (PageResponse Nat))).2 = [1, 2, 3, 4, 5] := by
  constructor <;> decide

/-- Claim C2 (code evaluation at the failing input): with engine identifier
`"Autodesk.Foo+2021"`, whose name segment `"Foo"` is none of the four
recognized kinds, the build does not fail: `createActivity` still issues the
POST to `/activities` with an undefined (`none`) config body and returns
successfully, and `updateActivity` does the same against
`/activities/<id>/versions` — there is no `default` case in the dispatch. -/
theorem createActivity_unknown_engine_posts :
    createActivity "https://developer.api.autodesk.com" "client" "act1" "desc" "bundle"
        "prod" "Autodesk.Foo+2021" [] [] none =
      ([DAEvent.authenticate ReadScopes,
        DAEvent.postReq "https://developer.api.autodesk.com/da/us-east/v3/activities" none],
        Except.ok none) ∧
    updateActivity "https://developer.api.autodesk.com" "client" "act1" "desc" "bundle"
        "prod" "Autodesk.Foo+2021" [] [] none =
      ([DAEvent.authenticate ReadScopes,
        DAEvent.postReq
          "https://developer.api.autodesk.com/da/us-east/v3/activities/act1/versions" none],
        Except.ok none) :=
  ⟨rfl, rfl⟩

/-- Claim C3 (counterexample): for a 3dsMax engine with two inputs,
`createActivity` does fail with the validation error and no POST is made, but
the trace at the point of failure already contains the `authenticate`
collaborator call — a network round trip — so the failure is not raised
before any network call. -/
theorem createActivity_3dsmax_auth_precedes_failure :
    createActivity "h" "client" "act1" "d" "bn" "ba" "Autodesk.3dsMax+2021"
        [{ name := "i1" }, { name := "i2" }] [] none =
      ([DAEvent.authenticate ReadScopes], Except.error threeDSMaxInputError) ∧
    [DAEvent.authenticate ReadScopes] ≠ ([] : List DAEvent) :=
  ⟨rfl, by decide⟩

/-- Claim C3 (as amended): for every `createActivity` call whose engine name
segment is `3dsMax` and which supplies more than one input, the operation
fails with the validation error after the single authentication call and
before the activity POST request is issued (the trace holds exactly the one
`authenticate` event and no `postReq`), and no descriptor is produced. -/
theorem createActivity_3dsmax_multi_input_fails (host clientId id description
    bundleName bundleAlias engine : String) (inputs : List InputDescriptor)
    (outputs : List OutputDescriptor) (script : Option String)
    (heng : engineUriName engine = "3dsMax") (hlen : 1 < inputs.length) :
    createActivity host clientId id description bundleName bundleAlias engine inputs
        outputs script =
      ([DAEvent.authenticate ReadScopes], Except.error threeDSMaxInputError) := by
  unfold createActivity
  simp [heng, threeDSMaxActivityConfig, hlen, Except.map]

/-- Witness for the amended claim C3 at a concrete call. -/
theorem createActivity_3dsmax_multi_input_fails_witness :
    engineUriName "Autodesk.3dsMax+2021" = "3dsMax" ∧
    1 < ([{ name := "a" }, { name := "b" }] : List InputDescriptor).length ∧
    createActivity "h" "c" "x" "d" "bn" "ba" "Autodesk.3dsMax+2021"
        [{ name := "a" }, { name := "b" }] [] none =
      ([DAEvent.authenticate ReadScopes], Except.error threeDSMaxInputError) :=
  ⟨rfl, by decide,
    createActivity_3dsmax_multi_input_fails "h" "c" "x" "d" "bn" "ba"
      "Autodesk.3dsMax+2021" [{ name := "a" }, { name := "b" }] [] none
      rfl (by decide)⟩

/-- Claim C9 (counterexample): `updateActivity` supplies no identifier, yet
for the Revit variant the produced (and posted) descriptor still contains an
`id` field — holding `null` — rather than containing no identifier field at
all. -/
theorem updateActivity_revit_id_field_null :
    Except.map (Option.map ActivityConfig.id)
        (updateActivity "h" "c" "act" "d" "bn" "ba" "Autodesk.Revit+2024"
          [] [] none).2 =
      Except.ok (some IdField.null) ∧
    IdField.null ≠ IdField.absent :=
  ⟨rfl, by decide⟩

/-- Claim C9 (as amended): the Inventor builder emits an identifier field iff
a truthy identifier was supplied (the field is absent otherwise); the
AutoCAD, Revit and 3dsMax builders always emit the field — holding the
supplied identifier, and `null` when none was supplied, as on update
(`idAlways none = null`). -/
theorem activity_id_field (description ownerId bundleName bundleAlias engine : String)
    (inputs : List InputDescriptor) (outputs : List OutputDescriptor)
    (script : Option String) :
    (∀ s : String, s ≠ "" →
      (inventorActivityConfig (some s) description ownerId bundleName bundleAlias engine
        inputs outputs).id = IdField.val s) ∧
    (inventorActivityConfig none description ownerId bundleName bundleAlias engine
        inputs outputs).id = IdField.absent ∧
    (inventorActivityConfig (some "") description ownerId bundleName bundleAlias engine
        inputs outputs).id = IdField.absent ∧
    (∀ aid : Option String,
      (revitActivityConfig aid description ownerId bundleName bundleAlias engine
          inputs outputs).id = idAlways aid ∧
      (autocadActivityConfig aid description ownerId bundleName bundleAlias engine
          inputs outputs script).id = idAlways aid) ∧
    (∀ (aid : Option String) (c : ActivityConfig),
      threeDSMaxActivityConfig aid description ownerId bundleName bundleAlias engine
          inputs outputs script = Except.ok c → c.id = idAlways aid) ∧
    idAlways none = IdField.null ∧ (∀ s : String, idAlways (some s) = IdField.val s) := by
  refine ⟨?_, rfl, by simp [inventorActivityConfig, idIfTruthy], fun aid => ⟨rfl, rfl⟩,
    ?_, rfl, fun s => rfl⟩
  · intro s hs
    simp [inventorActivityConfig, idIfTruthy, hs]
  · intro aid c h
    unfold threeDSMaxActivityConfig at h
    split at h
    · exact absurd h (by simp)
    · cases h
      rfl

/-- Witness for the amended claim C9 at a concrete identifier. -/
theorem activity_id_field_witness :
    ("a1" : String) ≠ "" ∧
    (inventorActivityConfig (some "a1") "d" "o" "bn" "ba" "e" [] []).id =
      IdField.val "a1" :=
  ⟨by decide, (activity_id_field "d" "o" "bn" "ba" "e" [] [] none).1 "a1" (by decide)⟩

theorem foldl_append_string (l : List String) :
    ∀ a b : String, l.foldl (fun r s => r ++ s) (a ++ b) =
      a ++ l.foldl (fun r s => r ++ s) b := by
  induction l with
  | nil => intro a b; rfl
  | cons x xs ih =>
    intro a b
    simp only [List.foldl_cons]
    rw [String.append_assoc]
    exact ih a (b ++ x)

theorem join_cons (a : String) (l : List String) :
    String.join (a :: l) = a ++ String.join l := by
  show List.foldl (fun r s => r ++ s) ("" ++ a) l = a ++ List.foldl (fun r s => r ++ s) "" l
  have h : ("" ++ a : String) = a ++ "" := by simp
  rw [h]
  exact foldl_append_string l a ""

theorem appendInputPlaceholders_eq (inputs : List InputDescriptor) :
    ∀ s : String, appendInputPlaceholders inputs s =
      s ++ String.join (inputs.map fun i => inputPlaceholder i.name) := by
  induction inputs with
  | nil => intro s; simp [appendInputPlaceholders, String.join]
  | cons i rest ih =>
    intro s
    simp only [appendInputPlaceholders, List.map_cons]
    rw [ih, join_cons, String.append_assoc]

theorem inputsCommandSuffix_of_ne_nil (inputs : List InputDescriptor)
    (h : 0 < inputs.length) :
    inputsCommandSuffix inputs =
      " /i" ++ String.join (inputs.map fun i => inputPlaceholder i.name) := by
  unfold inputsCommandSuffix
  rw [if_pos h, appendInputPlaceholders_eq]

/-- Claim C7: for the AutoCAD, Revit and Inventor variants with at least one
input, the produced command line (the single string held by the one-element
`commandLine` array) consists exactly of the base executable invocation,
then the input switch ` /i`, then one ` $(args[<name>].path)` placeholder per
input in input-list order, then — for AutoCAD only, when a script is present —
the script switch ` /s $(settings[script].path)` last. -/
theorem command_line_order (activityId : Option String)
    (description ownerId bundleName bundleAlias engine : String)
    (inputs : List InputDescriptor) (outputs : List OutputDescriptor)
    (script : Option String) (h : 0 < inputs.length) :
    (autocadActivityConfig activityId description ownerId bundleName bundleAlias engine
        inputs outputs script).commandLine =
      CommandLine.arr [autocadBaseCommand bundleName ++ " /i" ++
        String.join (inputs.map fun i => inputPlaceholder i.name) ++
        (if truthy script then autocadScriptSuffix else "")] ∧
    (revitActivityConfig activityId description ownerId bundleName bundleAlias engine
        inputs outputs).commandLine =
      CommandLine.arr [revitBaseCommand bundleName ++ " /i" ++
        String.join (inputs.map fun i => inputPlaceholder i.name)] ∧
    (inventorActivityConfig activityId description ownerId bundleName bundleAlias engine
        inputs outputs).commandLine =
      CommandLine.arr [inventorBaseCommand bundleName ++ " /i" ++
        String.join (inputs.map fun i => inputPlaceholder i.name)] := by
  refine ⟨?_, ?_, ?_⟩ <;>
    simp [autocadActivityConfig, revitActivityConfig, inventorActivityConfig,
      inputsCommandSuffix_of_ne_nil inputs h, String.append_assoc]

/-- Witness for claim C7 at one concrete input and script. -/
theorem command_line_order_witness :
    0 < ([{ name := "inp" }] : List InputDescriptor).length ∧
    ((autocadActivityConfig (some "a") "d" "o" "bn" "ba" "e"
        [{ name := "inp" }] [] (some "scr")).commandLine =
      CommandLine.arr [autocadBaseCommand "bn" ++ " /i" ++
        String.join (([{ name := "inp" }] : List InputDescriptor).map
          fun i => inputPlaceholder i.name) ++
        (if truthy (some "scr") then autocadScriptSuffix else "")] ∧
    (revitActivityConfig (some "a") "d" "o" "bn" "ba" "e"
        [{ name := "inp" }] []).commandLine =
      CommandLine.arr [revitBaseCommand "bn" ++ " /i" ++
        String.join (([{ name := "inp" }] : List InputDescriptor).map
          fun i => inputPlaceholder i.name)] ∧
    (inventorActivityConfig (some "a") "d" "o" "bn" "ba" "e"
        [{ name := "inp" }] []).commandLine =
      CommandLine.arr [inventorBaseCommand "bn" ++ " /i" ++
        String.join (([{ name := "inp" }] : List InputDescriptor).map
          fun i => inputPlaceholder i.name)]) :=
  ⟨by decide,
    command_line_order (some "a") "d" "o" "bn" "ba" "e" [{ name := "inp" }] []
      (some "scr") (by decide)⟩

theorem objInsert_of_not_mem (k : String) (v : ParameterDescriptor) :
    ∀ ps : Parameters, k ∉ ps.map Prod.fst → objInsert k v ps = ps ++ [(k, v)] := by
  intro ps
  induction ps with
  | nil => intro _; rfl
  | cons p rest ih =>
    intro h
    obtain ⟨k₂, v₂⟩ := p
    simp only [List.map_cons, List.mem_cons, not_or] at h
    rw [objInsert, if_neg (fun he => h.1 he.symm), ih h.2]
    rfl

theorem lookupParam_objInsert_self (k : String) (v : ParameterDescriptor) :
    ∀ ps : Parameters, lookupParam k (objInsert k v ps) = some v := by
  intro ps
  induction ps with
  | nil => simp [objInsert, lookupParam]
  | cons p rest ih =>
    obtain ⟨k₂, v₂⟩ := p
    by_cases h : k₂ = k
    · subst h; simp [objInsert, lookupParam]
    · simp [objInsert, lookupParam, h, ih]

theorem lookupParam_objInsert_ne (k : String) (v : ParameterDescriptor) (n : String)
    (h : k ≠ n) : ∀ ps : Parameters,
      lookupParam n (objInsert k v ps) = lookupParam n ps := by
  intro ps
  induction ps with
  | nil => simp [objInsert, lookupParam, h]
  | cons p rest ih =>
    obtain ⟨k₂, v₂⟩ := p
    by_cases h₂ : k₂ = k
    · subst h₂; simp [objInsert, lookupParam, h]
    · simp [objInsert, lookupParam, h₂, ih]

theorem keys_objInsert (k : String) (v : ParameterDescriptor) :
    ∀ ps : Parameters, (objInsert k v ps).map Prod.fst =
      if k ∈ ps.map Prod.fst then ps.map Prod.fst else ps.map Prod.fst ++ [k] := by
  intro ps
  induction ps with
  | nil => simp [objInsert]
  | cons p rest ih =>
    obtain ⟨k₂, v₂⟩ := p
    by_cases h : k₂ = k
    · subst h; simp [objInsert]
    · by_cases hm : k ∈ rest.map Prod.fst <;>
        simp [objInsert, h, ih, hm, Ne.symm h]

theorem keysNodup_objInsert (k : String) (v : ParameterDescriptor) (ps : Parameters)
    (h : (ps.map Prod.fst).Nodup) : ((objInsert k v ps).map Prod.fst).Nodup := by
  rw [keys_objInsert]
  split
  · exact h
  · next hm => simp [List.nodup_append, h, hm]

theorem mem_keys_of_lookupParam (n : String) :
    ∀ (ps : Parameters) (v : ParameterDescriptor),
      lookupParam n ps = some v → n ∈ ps.map Prod.fst := by
  intro ps
  induction ps with
  | nil => intro v h; cases h
  | cons p rest ih =>
    intro v h
    obtain ⟨k, v₂⟩ := p
    by_cases hk : k = n
    · subst hk; simp
    · rw [lookupParam, if_neg hk] at h
      simp [ih _ h]

theorem keysNodup_registerInputs :
    ∀ (inputs : List InputDescriptor) (ps : Parameters),
      (ps.map Prod.fst).Nodup → ((registerInputs inputs ps).map Prod.fst).Nodup := by
  intro inputs
  induction inputs with
  | nil => intro ps h; exact h
  | cons i rest ih =>
    intro ps h
    exact ih _ (keysNodup_objInsert _ _ _ h)

theorem keysNodup_registerOutputs :
    ∀ (outputs : List OutputDescriptor) (ps : Parameters),
      (ps.map Prod.fst).Nodup → ((registerOutputs outputs ps).map Prod.fst).Nodup := by
  intro outputs
  induction outputs with
  | nil => intro ps h; exact h
  | cons o rest ih =>
    intro ps h
    exact ih _ (keysNodup_objInsert _ _ _ h)

theorem lookupParam_registerInputs_not_mem (inputs : List InputDescriptor) :
    ∀ (ps : Parameters) (n : String), n ∉ inputs.map InputDescriptor.name →
      lookupParam n (registerInputs inputs ps) = lookupParam n ps := by
  induction inputs with
  | nil => intro ps n _; rfl
  | cons i rest ih =>
    intro ps n hn
    simp only [List.map_cons, List.mem_cons, not_or] at hn
    rw [registerInputs, ih _ _ hn.2,
      lookupParam_objInsert_ne _ _ _ (Ne.symm hn.1)]

theorem lookupParam_registerOutputs_not_mem (outputs : List OutputDescriptor) :
    ∀ (ps : Parameters) (n : String), n ∉ outputs.map OutputDescriptor.name →
      lookupParam n (registerOutputs outputs ps) = lookupParam n ps := by
  induction outputs with
  | nil => intro ps n _; rfl
  | cons o rest ih =>
    intro ps n hn
    simp only [List.map_cons, List.mem_cons, not_or] at hn
    rw [registerOutputs, ih _ _ hn.2,
      lookupParam_objInsert_ne _ _ _ (Ne.symm hn.1)]

theorem lookupParam_registerInputs_mem :
    ∀ inputs : List InputDescriptor, (inputs.map InputDescriptor.name).Nodup →
      ∀ (ps : Parameters) (i : InputDescriptor), i ∈ inputs →
        lookupParam i.name (registerInputs inputs ps) = some (getDescriptor i) := by
  intro inputs
  induction inputs with
  | nil => intro _ ps i h; cases h
  | cons i₁ rest ih =>
    intro hnodup ps i hi
    simp only [List.map_cons, List.nodup_cons] at hnodup
    rw [registerInputs]
    rcases List.mem_cons.mp hi with h | h
    · subst h
      rw [lookupParam_registerInputs_not_mem rest _ _ hnodup.1,
        lookupParam_objInsert_self]
    · exact ih hnodup.2 _ _ h

theorem lookupParam_registerOutputs_mem :
    ∀ outputs : List OutputDescriptor, (outputs.map OutputDescriptor.name).Nodup →
      ∀ (ps : Parameters) (o : OutputDescriptor), o ∈ outputs →
        lookupParam o.name (registerOutputs outputs ps) = some (putDescriptor o) := by
  intro outputs
  induction outputs with
  | nil => intro _ ps o h; cases h
  | cons o₁ rest ih =>
    intro hnodup ps o ho
    simp only [List.map_cons, List.nodup_cons] at hnodup
    rw [registerOutputs]
    rcases List.mem_cons.mp ho with h | h
    · subst h
      rw [lookupParam_registerOutputs_not_mem rest _ _ hnodup.1,
        lookupParam_objInsert_self]
    · exact ih hnodup.2 _ _ h

theorem registerInputs_append_form :
    ∀ inputs : List InputDescriptor, (inputs.map InputDescriptor.name).Nodup →
      ∀ ps : Parameters, (∀ i ∈ inputs, i.name ∉ ps.map Prod.fst) →
        registerInputs inputs ps = ps ++ inputs.map fun i => (i.name, getDescriptor i) := by
  intro inputs
  induction inputs with
  | nil => intro _ ps _; simp [registerInputs]
  | cons i rest ih =>
    intro hnd ps hdisj
    simp only [List.map_cons, List.nodup_cons] at hnd
    rw [registerInputs,
      objInsert_of_not_mem _ _ _ (hdisj i (List.mem_cons_self i rest)),
      ih hnd.2 _ ?_]
    · simp
    · intro j hj
      simp only [List.map_append, List.mem_append, List.map_cons, List.map_nil,
        List.mem_singleton, not_or]
      refine ⟨hdisj j (List.mem_cons_of_mem i hj), fun he => hnd.1 ?_⟩
      rw [← he]
      exact List.mem_map_of_mem InputDescriptor.name hj

theorem registerOutputs_append_form :
    ∀ outputs : List OutputDescriptor, (outputs.map OutputDescriptor.name).Nodup →
      ∀ ps : Parameters, (∀ o ∈ outputs, o.name ∉ ps.map Prod.fst) →
        registerOutputs outputs ps =
          ps ++ outputs.map fun o => (o.name, putDescriptor o) := by
  intro outputs
  induction outputs with
  | nil => intro _ ps _; simp [registerOutputs]
  | cons o rest ih =>
    intro hnd ps hdisj
    simp only [List.map_cons, List.nodup_cons] at hnd
    rw [registerOutputs,
      objInsert_of_not_mem _ _ _ (hdisj o (List.mem_cons_self o rest)),
      ih hnd.2 _ ?_]
    · simp
    · intro j hj
      simp only [List.map_append, List.mem_append, List.map_cons, List.map_nil,
        List.mem_singleton, not_or]
      refine ⟨hdisj j (List.mem_cons_of_mem o hj), fun he => hnd.1 ?_⟩
      rw [← he]
      exact List.mem_map_of_mem OutputDescriptor.name hj

theorem registered_params (inputs : List InputDescriptor)
    (outputs : List OutputDescriptor)
    (hnodup : (inputs.map InputDescriptor.name ++
      outputs.map OutputDescriptor.name).Nodup) :
    (registerOutputs outputs (registerInputs inputs [])).map Prod.fst =
        inputs.map InputDescriptor.name ++ outputs.map OutputDescriptor.name ∧
    (∀ i ∈ inputs, lookupParam i.name
        (registerOutputs outputs (registerInputs inputs [])) =
      some (getDescriptor i)) ∧
    (∀ o ∈ outputs, lookupParam o.name
        (registerOutputs outputs (registerInputs inputs [])) =
      some (putDescriptor o)) := by
  rw [List.nodup_append] at hnodup
  obtain ⟨hndI, hndO, hdisj⟩ := hnodup
  have hin : registerInputs inputs [] =
      inputs.map fun i => (i.name, getDescriptor i) := by
    rw [registerInputs_append_form inputs hndI [] (by simp)]
    rfl
  have hkeysIn : (registerInputs inputs []).map Prod.fst =
      inputs.map InputDescriptor.name := by
    rw [hin, List.map_map]
    rfl
  have hout : registerOutputs outputs (registerInputs inputs []) =
      registerInputs inputs [] ++ outputs.map fun o => (o.name, putDescriptor o) := by
    refine registerOutputs_append_form outputs hndO _ ?_
    intro o ho hmem
    rw [hkeysIn] at hmem
    exact hdisj hmem (List.mem_map_of_mem OutputDescriptor.name ho)
  refine ⟨?_, ?_, ?_⟩
  · rw [hout, List.map_append, hkeysIn, List.map_map]
    rfl
  · intro i hi
    have hni : i.name ∉ outputs.map OutputDescriptor.name :=
      fun hmem => hdisj (List.mem_map_of_mem InputDescriptor.name hi) hmem
    rw [lookupParam_registerOutputs_not_mem outputs _ _ hni]
    exact lookupParam_registerInputs_mem inputs hndI [] i hi
  · intro o ho
    exact lookupParam_registerOutputs_mem outputs hndO _ o ho

/-- Claim C8: for every builder variant, given input and output descriptor
lists with pairwise-distinct names across both lists, the produced
`parameters` mapping has as key list exactly the input names followed by the
output names (so exactly one entry per name), holding each input's `get`
descriptor and each output's `put` descriptor; the Revit, Inventor and (on
success, i.e. at most one input) 3dsMax variants produce the same mapping as
AutoCAD; and no variant's command line depends on the outputs. -/
theorem parameters_mapping (activityId : Option String)
    (description ownerId bundleName bundleAlias engine : String)
    (inputs : List InputDescriptor) (outputs : List OutputDescriptor)
    (script : Option String)
    (hnodup : (inputs.map InputDescriptor.name ++
      outputs.map OutputDescriptor.name).Nodup) :
    (autocadActivityConfig activityId description ownerId bundleName bundleAlias engine
        inputs outputs script).parameters.map Prod.fst =
      inputs.map InputDescriptor.name ++ outputs.map OutputDescriptor.name ∧
    (∀ i ∈ inputs,
      lookupParam i.name (autocadActivityConfig activityId description ownerId bundleName
          bundleAlias engine inputs outputs script).parameters =
        some (getDescriptor i) ∧ (getDescriptor i).verb = "get") ∧
    (∀ o ∈ outputs,
      lookupParam o.name (autocadActivityConfig activityId description ownerId bundleName
          bundleAlias engine inputs outputs script).parameters =
        some (putDescriptor o) ∧ (putDescriptor o).verb = "put") ∧
    (revitActivityConfig activityId description ownerId bundleName bundleAlias engine
        inputs outputs).parameters =
      (autocadActivityConfig activityId description ownerId bundleName bundleAlias engine
        inputs outputs script).parameters ∧
    (inventorActivityConfig activityId description ownerId bundleName bundleAlias engine
        inputs outputs).parameters =
      (autocadActivityConfig activityId description ownerId bundleName bundleAlias engine
        inputs outputs script).parameters ∧
    (inputs.length ≤ 1 → ∃ c,
      threeDSMaxActivityConfig activityId description ownerId bundleName bundleAlias engine
          inputs outputs script = Except.ok c ∧
      c.parameters = (autocadActivityConfig activityId description ownerId bundleName
        bundleAlias engine inputs outputs script).parameters) ∧
    (autocadActivityConfig activityId description ownerId bundleName bundleAlias engine
        inputs outputs script).commandLine =
      (autocadActivityConfig activityId description ownerId bundleName bundleAlias engine
        inputs [] script).commandLine ∧
    (revitActivityConfig activityId description ownerId bundleName bundleAlias engine
        inputs outputs).commandLine =
      (revitActivityConfig activityId description ownerId bundleName bundleAlias engine
        inputs []).commandLine ∧
    (inventorActivityConfig activityId description ownerId bundleName bundleAlias engine
        inputs outputs).commandLine =
      (inventorActivityConfig activityId description ownerId bundleName bundleAlias engine
        inputs []).commandLine ∧
    Except.map ActivityConfig.commandLine
        (threeDSMaxActivityConfig activityId description ownerId bundleName bundleAlias
          engine inputs outputs script) =
      Except.map ActivityConfig.commandLine
        (threeDSMaxActivityConfig activityId description ownerId bundleName bundleAlias
          engine inputs [] script) := by
  obtain ⟨hkeys, hin, hout⟩ := registered_params inputs outputs hnodup
  refine ⟨hkeys, fun i hi => ⟨hin i hi, rfl⟩, fun o ho => ⟨hout o ho, rfl⟩,
    rfl, rfl, ?_, rfl, rfl, rfl, ?_⟩
  · intro hlen
    unfold threeDSMaxActivityConfig
    rw [if_neg (by omega)]
    refine ⟨_, rfl, ?_⟩
    cases inputs with
    | nil => rfl
    | cons i₁ rest =>
      cases rest with
      | nil => rfl
      | cons j rest₂ =>
        simp only [List.length_cons] at hlen
        omega
  · unfold threeDSMaxActivityConfig
    split <;> rfl

/-- Witness for claim C8 at one concrete input and output. -/
theorem parameters_mapping_witness :
    (([⟨"a", none⟩] : List InputDescriptor).map InputDescriptor.name ++
      ([⟨"b", none, none⟩] : List OutputDescriptor).map OutputDescriptor.name).Nodup ∧
    (autocadActivityConfig (some "x") "d" "o" "bn" "ba" "e" [⟨"a", none⟩]
        [⟨"b", none, none⟩] none).parameters.map Prod.fst =
      ([⟨"a", none⟩] : List InputDescriptor).map InputDescriptor.name ++
      ([⟨"b", none, none⟩] : List OutputDescriptor).map OutputDescriptor.name :=
  ⟨by decide,
    (parameters_mapping (some "x") "d" "o" "bn" "ba" "e" [⟨"a", none⟩]
      [⟨"b", none, none⟩] none (by decide)).1⟩

/-- Claim C10 (implicit): in every builder variant, an input and an output
sharing the same name raises no error; the resulting parameter mapping holds
a single entry for that name, holding the output's `put` descriptor —
outputs are registered after inputs and silently overwrite them (the 3dsMax
variant remains subject to its separate input-count guard). -/
theorem shared_name_output_wins (activityId : Option String)
    (description ownerId bundleName bundleAlias engine : String)
    (inputs : List InputDescriptor) (outputs : List OutputDescriptor)
    (script : Option String) (i : InputDescriptor) (o : OutputDescriptor)
    (hi : i ∈ inputs) (ho : o ∈ outputs) (hshare : i.name = o.name)
    (hnodup : (outputs.map OutputDescriptor.name).Nodup) :
    lookupParam i.name (autocadActivityConfig activityId description ownerId bundleName
        bundleAlias engine inputs outputs script).parameters =
      some (putDescriptor o) ∧
    ((autocadActivityConfig activityId description ownerId bundleName bundleAlias engine
        inputs outputs script).parameters.map Prod.fst).count i.name = 1 ∧
    (revitActivityConfig activityId description ownerId bundleName bundleAlias engine
        inputs outputs).parameters =
      (autocadActivityConfig activityId description ownerId bundleName bundleAlias engine
        inputs outputs script).parameters ∧
    (inventorActivityConfig activityId description ownerId bundleName bundleAlias engine
        inputs outputs).parameters =
      (autocadActivityConfig activityId description ownerId bundleName bundleAlias engine
        inputs outputs script).parameters ∧
    (putDescriptor o).verb = "put" ∧
    (inputs.length ≤ 1 → ∃ c,
      threeDSMaxActivityConfig activityId description ownerId bundleName bundleAlias engine
          inputs outputs script = Except.ok c ∧
      c.parameters = (autocadActivityConfig activityId description ownerId bundleName
        bundleAlias engine inputs outputs script).parameters) := by
  have hlook : lookupParam i.name
      (registerOutputs outputs (registerInputs inputs [])) = some (putDescriptor o) := by
    rw [hshare]
    exact lookupParam_registerOutputs_mem outputs hnodup _ o ho
  have hkeysnd : ((registerOutputs outputs (registerInputs inputs [])).map
      Prod.fst).Nodup :=
    keysNodup_registerOutputs outputs _ (keysNodup_registerInputs inputs [] (by simp))
  have hmem : i.name ∈ (registerOutputs outputs (registerInputs inputs [])).map
      Prod.fst :=
    mem_keys_of_lookupParam _ _ _ hlook
  refine ⟨hlook, List.count_eq_one_of_mem hkeysnd hmem, rfl, rfl, rfl, ?_⟩
  intro hlen
  unfold threeDSMaxActivityConfig
  rw [if_neg (by omega)]
  refine ⟨_, rfl, ?_⟩
  cases inputs with
  | nil => rfl
  | cons i₁ rest =>
    cases rest with
    | nil => rfl
    | cons j rest₂ =>
      simp only [List.length_cons] at hlen
      omega

/-- Witness for claim C10 at one concrete shared name. -/
theorem shared_name_output_wins_witness :
    (⟨"n", none⟩ : InputDescriptor) ∈ ([⟨"n", none⟩] : List InputDescriptor) ∧
    (⟨"n", none, some "ln"⟩ : OutputDescriptor) ∈
      ([⟨"n", none, some "ln"⟩] : List OutputDescriptor) ∧
    (⟨"n", none⟩ : InputDescriptor).name =
      (⟨"n", none, some "ln"⟩ : OutputDescriptor).name ∧
    (([⟨"n", none, some "ln"⟩] : List OutputDescriptor).map
      OutputDescriptor.name).Nodup ∧
    lookupParam "n" (autocadActivityConfig (some "x") "d" "o" "bn" "ba" "e"
        [⟨"n", none⟩] [⟨"n", none, some "ln"⟩] none).parameters =
      some (putDescriptor ⟨"n", none, some "ln"⟩) :=
  ⟨by decide, by decide, rfl, by decide,
    (shared_name_output_wins (some "x") "d" "o" "bn" "ba" "e" [⟨"n", none⟩]
      [⟨"n", none, some "ln"⟩] none ⟨"n", none⟩ ⟨"n", none, some "ln"⟩
      (by decide) (by decide) rfl (by decide)).1⟩

theorem collectRun_cons_some {α : Type} (host endpoint : String)
    (scopes : List String) (d : List α) (t : String)
    (rest : List (PageResponse α)) (tok : Option String) :
    collectRun host endpoint scopes
        ({ data := d, paginationToken := some t } :: rest) tok =
      (PageEvent.authenticate scopes :: PageEvent.getPage (pageUrl host endpoint tok) ::
          (collectRun host endpoint scopes rest (some t)).1,
        d ++ (collectRun host endpoint scopes rest (some t)).2) := rfl

theorem collectRun_chain {α : Type} (host endpoint : String) (scopes : List String) :
    ∀ (responses : List (PageResponse α)) (tok : Option String),
      isTokenChain responses = true →
      countAuth (collectRun host endpoint scopes responses tok).1 = responses.length ∧
      countGet (collectRun host endpoint scopes responses tok).1 = responses.length ∧
      isAuthGetBlocks scopes (collectRun host endpoint scopes responses tok).1 = true ∧
      (collectRun host endpoint scopes responses tok).2 =
        (responses.map PageResponse.data).flatten := by
  intro responses
  induction responses with
  | nil => intro tok h; simp [isTokenChain] at h
  | cons r rest ih =>
    intro tok h
    cases rest with
    | nil =>
      have hr : r.paginationToken = none := by
        simpa [isTokenChain, Option.isNone_iff_eq_none] using h
      simp [collectRun, hr, countAuth, countGet, isAuthGetBlocks]
    | cons r₂ rest₂ =>
      have h₁ : r.paginationToken.isSome = true ∧ isTokenChain (r₂ :: rest₂) = true := by
        simpa [isTokenChain] using h
      obtain ⟨t, ht⟩ := Option.isSome_iff_exists.mp h₁.1
      obtain ⟨e1, e2, e3, e4⟩ := ih (some t) h₁.2
      obtain ⟨rdata, rtok⟩ := r
      simp only at ht
      subst ht
      rw [collectRun_cons_some]
      simp [countAuth, countGet, isAuthGetBlocks, e1, e2, e3, e4]

/-- Claim C5: over a response sequence of `k` pages in which only the last
carries no continuation token, `_collect` performs exactly `k` authenticate
calls and `k` page fetches — the trace is `k` blocks of an `authenticate`
with the given scopes immediately followed by a page fetch — and returns the
`k` pages' items concatenated in page order. -/
theorem collect_round_trips {α : Type} (host endpoint : String)
    (scopes : List String) (responses : List (PageResponse α))
    (h : isTokenChain responses = true) :
    countAuth (collect host endpoint scopes responses).1 = responses.length ∧
    countGet (collect host endpoint scopes responses).1 = responses.length ∧
    isAuthGetBlocks scopes (collect host endpoint scopes responses).1 = true ∧
    (collect host endpoint scopes responses).2 =
      (responses.map PageResponse.data).flatten :=
  collectRun_chain host endpoint scopes responses none h

/-- Witness for claim C5 on a concrete two-page run. -/
theorem collect_round_trips_witness :
    isTokenChain ([{ data := [1], paginationToken := some "X" },
      { data := [2, 3] }] : List (PageResponse Nat)) = true ∧
    (countAuth (collect "h" "/engines" ["code:all"]
        ([{ data := [1], paginationToken := some "X" },
          { data := [2, 3] }] : List (PageResponse Nat))).1 =
      ([{ data := [1], paginationToken := some "X" },
        { data := [2, 3] }] : List (PageResponse Nat)).length ∧
    countGet (collect "h" "/engines" ["code:all"]
        ([{ data := [1], paginationToken := some "X" },
          { data := [2, 3] }] : List (PageResponse Nat))).1 =
      ([{ data := [1], paginationToken := some "X" },
        { data := [2, 3] }] : List (PageResponse Nat)).length ∧
    isAuthGetBlocks ["code:all"] (collect "h" "/engines" ["code:all"]
        ([{ data := [1], paginationToken := some "X" },
          { data := [2, 3] }] : List (PageResponse Nat))).1 = true ∧
    (collect "h" "/engines" ["code:all"]
        ([{ data := [1], paginationToken := some "X" },
          { data := [2, 3] }] : List (PageResponse Nat))).2 =
      (([{ data := [1], paginationToken := some "X" },
        { data := [2, 3] }] : List (PageResponse Nat)).map
          PageResponse.data).flatten) :=
  ⟨by decide,
    collect_round_trips "h" "/engines" ["code:all"]
      [{ data := [1], paginationToken := some "X" }, { data := [2, 3] }] (by decide)⟩

end ForgeServerUtils
